import Mathlib

/-!
Verification of the nixpkgs-pr-tracker polling state machine.

The Go sources are shallowly embedded: the sqlite-backed store
(`internal/db`) becomes a pure `DBState` with list-of-rows tables, the
GitHub client (`internal/github`) becomes functions over abstract HTTP
responses, the event bus (`internal/event`) becomes a list of handlers
run in order, and the poller (`internal/poller`) becomes a pure
function threading the store state and collecting the published events
and the upstream calls it makes.  Wall-clock time is an explicit `Nat`
parameter wherever the Go code reads `CURRENT_TIMESTAMP` or
`time.Now()`.
-/

namespace NPT

/-! ## Store data model (internal/db)

The sqlite schema has two tables: `tracked_prs` keyed by the unique
`pr_number`, and `branch_status` keyed by the unique pair
`(pr_number, branch)`.  A row of each table is a structure; the store
state is the pair of tables, as lists in insertion order. -/

/-- Row of the `branch_status` table: `(pr_number, branch, landed, landed_at)`. -/
structure BranchRow where
  prNumber : Int
  branch : String
  landed : Bool
  landedAt : Option Nat
  deriving Repr, DecidableEq

/-- Row of the `tracked_prs` table (columns the code reads back). -/
structure PRRow where
  prNumber : Int
  title : String
  author : String
  status : String
  mergeCommit : String
  lastCheckedAt : Option Nat
  deriving Repr, DecidableEq

/-- The store state: both tables, rows in insertion order. -/
structure DBState where
  prRows : List PRRow
  branchRows : List BranchRow
  deriving Repr, DecidableEq

/-- Go struct `db.BranchStatus` as returned by `GetBranchStatus`. -/
structure BranchStatus where
  Branch : String
  Landed : Bool
  LandedAt : Option Nat
  deriving Repr, DecidableEq

/-- Go struct `db.TrackedPR` as returned by `GetPR` / `ListPRs`. -/
structure TrackedPR where
  PRNumber : Int
  Title : String
  Author : String
  Status : String
  MergeCommit : String
  Branches : List BranchStatus
  deriving Repr, DecidableEq

/-- Key match for a `branch_status` row, as used in `WHERE pr_number = ? AND branch = ?`. -/
def BranchRow.keyIs (r : BranchRow) (n : Int) (b : String) : Bool :=
  r.prNumber == n && r.branch == b

/-- Embeds `db.AddPR`: `INSERT OR IGNORE INTO tracked_prs (pr_number) VALUES (?)`;
the remaining columns take their schema defaults. -/
def DB.AddPR (s : DBState) (n : Int) : DBState :=
  if s.prRows.any (fun r => r.prNumber == n) then s
  else { s with prRows := s.prRows ++
          [{ prNumber := n, title := "", author := "", status := "open",
             mergeCommit := "", lastCheckedAt := none }] }

/-- Embeds `db.RemovePR`: one transaction deleting the `branch_status` rows and the
`tracked_prs` row for `n`; deleting zero rows succeeds. -/
def DB.RemovePR (s : DBState) (n : Int) : DBState :=
  { prRows := s.prRows.filter (fun r => !(r.prNumber == n)),
    branchRows := s.branchRows.filter (fun r => !(r.prNumber == n)) }

/-- Embeds `db.UpdatePRStatus`: `UPDATE tracked_prs SET status, merge_commit, title,
author ... WHERE pr_number = ?`. -/
def DB.UpdatePRStatus (s : DBState) (n : Int)
    (status mergeCommit title author : String) : DBState :=
  { s with prRows := s.prRows.map (fun r =>
      if r.prNumber == n then
        { r with status := status, mergeCommit := mergeCommit,
                 title := title, author := author }
      else r) }

/-- Embeds `db.UpdateBranchLanded`: `INSERT INTO branch_status (..., landed, landed_at)
VALUES (?, ?, 1, CURRENT_TIMESTAMP) ON CONFLICT(pr_number, branch) DO UPDATE SET
landed = 1, landed_at = CURRENT_TIMESTAMP`.  Note the upsert arm rewrites
`landed_at` to the current time. -/
def DB.UpdateBranchLanded (s : DBState) (n : Int) (b : String) (now : Nat) : DBState :=
  if s.branchRows.any (fun r => r.keyIs n b) then
    { s with branchRows := s.branchRows.map (fun r =>
        if r.keyIs n b then { r with landed := true, landedAt := some now } else r) }
  else
    { s with branchRows := s.branchRows ++
        [{ prNumber := n, branch := b, landed := true, landedAt := some now }] }

/-- Modelled from the spec: the v2 store code adding `last_checked_at` is not
among the sources (only `db_test.go` exercises it); per the data model's
"last-checked" timestamp and the test `TestUpdateLastChecked`, it stamps the
single `tracked_prs` row for `n` and touches nothing else. -/
def DB.UpdateLastChecked (s : DBState) (n : Int) (now : Nat) : DBState :=
  { s with prRows := s.prRows.map (fun r =>
      if r.prNumber == n then { r with lastCheckedAt := some now } else r) }

/-- Embeds `db.GetBranchStatus`: `SELECT branch, landed, landed_at FROM branch_status
WHERE pr_number = ?`, rows in insertion order. -/
def DB.GetBranchStatus (s : DBState) (n : Int) : List BranchStatus :=
  (s.branchRows.filter (fun r => r.prNumber == n)).map
    (fun r => { Branch := r.branch, Landed := r.landed, LandedAt := r.landedAt })

/-- View of a `tracked_prs` row as the Go `db.TrackedPR` struct. -/
def PRRow.toTrackedPR (r : PRRow) (branches : List BranchStatus) : TrackedPR :=
  { PRNumber := r.prNumber, Title := r.title, Author := r.author,
    Status := r.status, MergeCommit := r.mergeCommit, Branches := branches }

/-- Embeds `db.GetPR`: the row with `pr_number = n` plus its branch rows, or
not-found (`none`). -/
def DB.GetPR (s : DBState) (n : Int) : Option TrackedPR :=
  (s.prRows.find? (fun r => r.prNumber == n)).map
    (fun r => r.toTrackedPR (DB.GetBranchStatus s n))

/-- Insertion step for `ORDER BY pr_number DESC`. -/
def insertDescByPR (r : PRRow) : List PRRow → List PRRow
  | [] => [r]
  | x :: xs => if x.prNumber ≤ r.prNumber then r :: x :: xs else x :: insertDescByPR r xs

/-- Sorting of `tracked_prs` rows by `pr_number DESC`. -/
def sortByPRDesc (rs : List PRRow) : List PRRow :=
  rs.foldr insertDescByPR []

/-- Embeds `db.ListPRs`: all rows ordered by `pr_number DESC`, each with its branch
rows attached. -/
def DB.ListPRs (s : DBState) : List TrackedPR :=
  (sortByPRDesc s.prRows).map (fun r => r.toTrackedPR (DB.GetBranchStatus s r.prNumber))

/-- Store-recorded landing: some `branch_status` row for `(n, b)` has
`landed = true`. -/
def DB.branchLanded (s : DBState) (n : Int) (b : String) : Bool :=
  s.branchRows.any (fun r => r.keyIs n b && r.landed)

/-- Well-formedness mirroring the schema's UNIQUE constraints:
`pr_number` is unique in `tracked_prs` and `(pr_number, branch)` is unique
in `branch_status`. -/
def DBState.WF (s : DBState) : Prop :=
  s.prRows.Pairwise (fun a b => a.prNumber ≠ b.prNumber) ∧
  s.branchRows.Pairwise (fun a b => a.prNumber ≠ b.prNumber ∨ a.branch ≠ b.branch)

/-! ## Store lemmas -/

lemma BranchRow.keyIs_true_iff {r : BranchRow} {n : Int} {b : String} :
    r.keyIs n b = true ↔ r.prNumber = n ∧ r.branch = b := by
  simp [BranchRow.keyIs]

lemma keyIs_update {r : BranchRow} {n : Int} {b : String} {t : Nat} :
    ((if r.keyIs n b then { r with landed := true, landedAt := some t } else r).keyIs n b)
      = r.keyIs n b := by
  by_cases hn : r.prNumber = n <;> by_cases hb : r.branch = b <;>
    simp [BranchRow.keyIs, hn, hb]

lemma filter_keyIs_singleton {rows : List BranchRow} {n : Int} {b : String}
    (hP : rows.Pairwise (fun a c => a.prNumber ≠ c.prNumber ∨ a.branch ≠ c.branch))
    (h : rows.any (fun r => r.keyIs n b) = true) :
    ∃ r0, rows.filter (fun r => r.keyIs n b) = [r0] ∧ r0.keyIs n b = true := by
  induction rows with
  | nil => simp at h
  | cons x xs ih =>
    by_cases hx : x.keyIs n b = true
    · refine ⟨x, ?_, hx⟩
      have hxs : xs.filter (fun r => r.keyIs n b) = [] := by
        rw [List.filter_eq_nil_iff]
        intro a ha hak
        obtain ⟨hn, hb⟩ := BranchRow.keyIs_true_iff.mp hak
        obtain ⟨hxn, hxb⟩ := BranchRow.keyIs_true_iff.mp hx
        rcases (List.pairwise_cons.mp hP).1 a ha with hne | hne
        · exact hne (hxn.trans hn.symm)
        · exact hne (hxb.trans hb.symm)
      simp [List.filter_cons, hx, hxs]
    · have hany : xs.any (fun r => r.keyIs n b) = true := by
        rcases List.any_eq_true.mp h with ⟨r, hr, hrk⟩
        rcases List.mem_cons.mp hr with rfl | hr2
        · exact absurd hrk hx
        · exact List.any_eq_true.mpr ⟨r, hr2, hrk⟩
      obtain ⟨r0, hf, hk⟩ := ih (List.pairwise_cons.mp hP).2 hany
      exact ⟨r0, by simp [List.filter_cons, hx, hf], hk⟩

lemma UpdateBranchLanded_filter_keyIs (s : DBState) (hWF : s.WF) (n : Int) (b : String)
    (t : Nat) :
    (DB.UpdateBranchLanded s n b t).branchRows.filter (fun r => r.keyIs n b)
      = [{ prNumber := n, branch := b, landed := true, landedAt := some t }] := by
  unfold DB.UpdateBranchLanded
  by_cases h : s.branchRows.any (fun r => r.keyIs n b) = true
  · rw [if_pos h]
    show (s.branchRows.map _).filter _ = _
    rw [List.filter_map]
    have hcomp : ((fun r => BranchRow.keyIs r n b) ∘
        (fun (r : BranchRow) =>
          if r.keyIs n b then { r with landed := true, landedAt := some t } else r))
        = fun r => r.keyIs n b := by
      funext r; exact keyIs_update
    rw [hcomp]
    obtain ⟨r0, hf, hk⟩ := filter_keyIs_singleton hWF.2 h
    obtain ⟨hn, hb⟩ := BranchRow.keyIs_true_iff.mp hk
    rw [hf]
    simp [hk, hn, hb]
  · rw [if_neg h]
    show (s.branchRows ++ _).filter _ = _
    have hfalse : s.branchRows.any (fun r => r.keyIs n b) = false := by
      simpa using h
    have hnil : s.branchRows.filter (fun r => r.keyIs n b) = [] := by
      rw [List.filter_eq_nil_iff]
      intro a ha hak
      exact List.any_eq_false.mp hfalse a ha hak
    rw [List.filter_append, hnil]
    simp [BranchRow.keyIs]

lemma WF_UpdateBranchLanded (s : DBState) (hWF : s.WF) (n : Int) (b : String) (t : Nat) :
    (DB.UpdateBranchLanded s n b t).WF := by
  obtain ⟨h1, h2⟩ := hWF
  unfold DB.UpdateBranchLanded
  by_cases h : s.branchRows.any (fun r => r.keyIs n b) = true
  · rw [if_pos h]
    refine ⟨h1, ?_⟩
    show ((s.branchRows.map _).Pairwise _)
    rw [List.pairwise_map]
    refine h2.imp ?_
    intro a c hac
    by_cases ha : a.keyIs n b = true <;> by_cases hc : c.keyIs n b = true <;>
      simpa [ha, hc] using hac
  · rw [if_neg h]
    refine ⟨h1, ?_⟩
    show ((s.branchRows ++ _).Pairwise _)
    rw [List.pairwise_append]
    refine ⟨h2, by simp, ?_⟩
    intro a ha c hc
    rw [List.mem_singleton] at hc
    subst hc
    have hfalse : s.branchRows.any (fun r => r.keyIs n b) = false := by
      simpa using h
    have hnk := List.any_eq_false.mp hfalse a ha
    rw [BranchRow.keyIs_true_iff] at hnk
    show a.prNumber ≠ n ∨ a.branch ≠ b
    by_cases hn : a.prNumber = n
    · exact Or.inr fun hb2 => hnk ⟨hn, hb2⟩
    · exact Or.inl hn

/-! ## Claim C2 -/

/-- C2 counterexample: on a fresh store, mark branch "nixos-unstable" of
item 8 landed at time 0 and again at time 1.  After the first call the
recorded `landedAt` is 0; after the second it is 1 — the second call
changed the timestamp written by the first, contrary to the claim that it
is never changed. -/
theorem claim_C2_cex :
    (DB.GetBranchStatus
        (DB.UpdateBranchLanded (DB.UpdateBranchLanded (DB.AddPR ⟨[], []⟩ 8)
          8 "nixos-unstable" 0) 8 "nixos-unstable" 1) 8)
      = [{ Branch := "nixos-unstable", Landed := true, LandedAt := some 1 }]
    ∧ (DB.GetBranchStatus
        (DB.UpdateBranchLanded (DB.AddPR ⟨[], []⟩ 8) 8 "nixos-unstable" 0) 8)
      = [{ Branch := "nixos-unstable", Landed := true, LandedAt := some 0 }]
    ∧ (some 1 : Option Nat) ≠ some 0 := by
  refine ⟨by decide, by decide, by decide⟩

/-- C2 (amended): on a well-formed store, calling `UpdateBranchLanded` twice
for the same `(item, branch)` pair leaves exactly one landed record for that
pair, but its `landedAt` timestamp is the time of the SECOND call — the
upsert overwrites the timestamp rather than preserving the first one. -/
theorem claim_C2 (s : DBState) (hWF : s.WF) (n : Int) (b : String) (t1 t2 : Nat) :
    ((DB.UpdateBranchLanded (DB.UpdateBranchLanded s n b t1) n b t2).branchRows.filter
        (fun r => r.keyIs n b))
      = [{ prNumber := n, branch := b, landed := true, landedAt := some t2 }] :=
  UpdateBranchLanded_filter_keyIs _ (WF_UpdateBranchLanded s hWF n b t1) n b t2

/-- C2 witness: the amended claim evaluated on a concrete fresh store. -/
theorem claim_C2_witness :
    ((DB.UpdateBranchLanded (DB.UpdateBranchLanded ⟨[], []⟩ 8 "x" 0) 8 "x" 1).branchRows.filter
        (fun r => r.keyIs 8 "x"))
      = [{ prNumber := 8, branch := "x", landed := true, landedAt := some 1 }] :=
  claim_C2 ⟨[], []⟩ ⟨List.Pairwise.nil, List.Pairwise.nil⟩ 8 "x" 0 1

/-! ## Events (internal/event) -/

/-- Go `event.Type` constants. -/
inductive EventType where
  | PRAdded
  | PRRemoved
  | PRMerged
  | PRLandedBranch
  deriving Repr, DecidableEq

/-- Go `event.Event`.  The Go field `Type` is called `etype` here because
`Type` is reserved in Lean; zero values of unset fields are the defaults. -/
structure Event where
  etype : EventType
  PRNumber : Int
  Title : String := ""
  Author : String := ""
  Branch : String := ""
  Timestamp : Nat := 0
  deriving Repr, DecidableEq

/-! ## Upstream client results, as consumed by the poller -/

/-- Go `github.PRInfo`. -/
structure PRInfo where
  Number : Int
  Title : String
  Author : String
  State : String
  Merged : Bool
  MergeCommit : String
  deriving Repr, DecidableEq

/-- Outcome of one upstream call: success, a plain error, or a rate-limit
error carrying the reset time (`github.RateLimitError.RetryAfter`). -/
inductive GhResult (α : Type) where
  | ok (val : α)
  | fail
  | rateLimited (resetAt : Nat)
  deriving Repr, DecidableEq

/-- One upstream HTTP call made by the poller, for the call trace. -/
inductive Call where
  | getPR (n : Int)
  | compare (sha : String) (branch : String)
  deriving Repr, DecidableEq

/-- Result of `pollPR`, mirroring its Go `error` return. -/
inductive PollRes where
  | ok
  | err
  | rateLimited (resetAt : Nat)
  deriving Repr, DecidableEq

/-- The rate-limit reset time of a `pollPR` result, if any (this is the
`errors.As(err, &rlErr)` test in `poll`). -/
def PollRes.rlTime : PollRes → Option Nat
  | .rateLimited t => some t
  | _ => none

/-- Environment driving a poll cycle: the upstream responses per call and
whether each store write fails.  Each oracle is keyed the same way the
corresponding call is keyed, and each write is made at most once per item
per cycle. -/
structure Env where
  getPR : Int → GhResult PRInfo
  isCommitInBranch : String → String → GhResult Bool
  updatePRStatusFails : Int → Bool
  updateBranchLandedFails : Int → String → Bool
  removePRFails : Int → Bool

/-! ## Polling engine (internal/poller) -/

/-- Output of the branch-checking loop of `pollPR` (source lines 147-173):
store state, published events, upstream calls, the in-memory
`landedBranches` set, and how the loop ended. -/
structure LoopOut where
  s : DBState
  evs : List Event
  calls : List Call
  landed : List String
  res : PollRes
  deriving Repr, DecidableEq

/-- The `landedBranches` map seeded from the item's loaded branch rows
(source lines 140-145). -/
def snapshotLanded (pr : TrackedPR) : List String :=
  (pr.Branches.filter (fun bs => bs.Landed)).map (fun bs => bs.Branch)

/-- Branch-checking loop of `pollPR` (source lines 147-173): for each
monitored branch not in `landedBranches`, call `IsCommitInBranch`; on error
abort with that error; on a hit, write the landed flag (a failed write is
logged and skipped) and publish a `PRLandedBranch` event. -/
def branchLoop (env : Env) (n : Int) (mc title author : String) (now : Nat) :
    List String → DBState → List String → LoopOut
  | [], s, landed => ⟨s, [], [], landed, .ok⟩
  | b :: bs, s, landed =>
    if landed.contains b then branchLoop env n mc title author now bs s landed
    else
      match env.isCommitInBranch mc b with
      | .fail => ⟨s, [], [.compare mc b], landed, .err⟩
      | .rateLimited t => ⟨s, [], [.compare mc b], landed, .rateLimited t⟩
      | .ok inBranch =>
        if inBranch then
          if env.updateBranchLandedFails n b then
            let out := branchLoop env n mc title author now bs s landed
            { out with calls := .compare mc b :: out.calls }
          else
            let s1 := DB.UpdateBranchLanded s n b now
            let out := branchLoop env n mc title author now bs s1 (landed ++ [b])
            { out with
                evs := { etype := .PRLandedBranch, PRNumber := n, Title := title,
                         Author := author, Branch := b, Timestamp := now } :: out.evs,
                calls := .compare mc b :: out.calls }
        else
          let out := branchLoop env n mc title author now bs s landed
          { out with calls := .compare mc b :: out.calls }

/-- Removal step of `pollPR` (source lines 175-195): once every monitored
branch is in `landedBranches`, delete the item (a failed delete is only
logged) and publish a `PRRemoved` event. -/
def removalStep (env : Env) (n : Int) (title author : String) (now : Nat)
    (branches : List String) (landed : List String) (s : DBState) :
    DBState × List Event :=
  if branches.all (fun b => landed.contains b) then
    (if env.removePRFails n then s else DB.RemovePR s n,
     [{ etype := .PRRemoved, PRNumber := n, Title := title, Author := author,
        Timestamp := now }])
  else (s, [])

/-- Result of polling one item. -/
structure PollOut where
  s : DBState
  evs : List Event
  calls : List Call
  res : PollRes
  deriving Repr, DecidableEq

/-- Merged-section of `pollPR` (source lines 139-196), entered with the
locally updated `pr`: run the branch loop, then the removal step if the
loop finished without error. -/
def pollPRFrom (env : Env) (branches : List String) (s : DBState) (pr : TrackedPR)
    (now : Nat) : PollOut :=
  if pr.Status == "merged" && pr.MergeCommit != "" then
    let out := branchLoop env pr.PRNumber pr.MergeCommit pr.Title pr.Author now
      branches s (snapshotLanded pr)
    match out.res with
    | .ok =>
      let p := removalStep env pr.PRNumber pr.Title pr.Author now
        branches out.landed out.s
      ⟨p.1, out.evs ++ p.2, out.calls, .ok⟩
    | r => ⟨out.s, out.evs, out.calls, r⟩
  else ⟨s, [], [], .ok⟩

/-- Embeds `poller.pollPR` (source lines 101-198): for an open item fetch the
upstream status first — merged advances to the merged-section this same
call with the freshly learned merge commit; closed or still-open stops
after a status write. -/
def pollPR (env : Env) (branches : List String) (s : DBState) (pr : TrackedPR)
    (now : Nat) : PollOut :=
  if pr.Status == "open" then
    match env.getPR pr.PRNumber with
    | .fail => ⟨s, [], [.getPR pr.PRNumber], .err⟩
    | .rateLimited t => ⟨s, [], [.getPR pr.PRNumber], .rateLimited t⟩
    | .ok info =>
      if info.Merged then
        if env.updatePRStatusFails pr.PRNumber then
          ⟨s, [], [.getPR pr.PRNumber], .ok⟩
        else
          let s1 := DB.UpdatePRStatus s pr.PRNumber "merged" info.MergeCommit
            info.Title info.Author
          let pr1 := { pr with
            Status := "merged"
            MergeCommit := info.MergeCommit
            Title := info.Title
            Author := info.Author }
          let out := pollPRFrom env branches s1 pr1 now
          ⟨out.s,
           { etype := .PRMerged, PRNumber := pr.PRNumber, Title := info.Title,
             Author := info.Author, Timestamp := now } :: out.evs,
           .getPR pr.PRNumber :: out.calls, out.res⟩
      else if info.State == "closed" then
        ⟨if env.updatePRStatusFails pr.PRNumber then s
         else DB.UpdatePRStatus s pr.PRNumber "closed" "" info.Title info.Author,
         [], [.getPR pr.PRNumber], .ok⟩
      else
        ⟨if env.updatePRStatusFails pr.PRNumber then s
         else DB.UpdatePRStatus s pr.PRNumber "open" "" info.Title info.Author,
         [], [.getPR pr.PRNumber], .ok⟩
  else
    pollPRFrom env branches s pr now

/-- Result of one whole poll: the rate-limit reset time replaces the
per-item result (`poll` returns `*github.RateLimitError`). -/
structure CycleOut where
  s : DBState
  evs : List Event
  calls : List Call
  rl : Option Nat
  deriving Repr, DecidableEq

/-- Item loop of `poll` (source lines 86-98): check cancellation before each
item, poll it, and stop the cycle returning the rate-limit error if the
item was rate limited; any other per-item error just moves on. -/
def pollGo (env : Env) (branches : List String) (now : Nat) (cancelled : Bool) :
    List TrackedPR → DBState → CycleOut
  | [], s => ⟨s, [], [], none⟩
  | pr :: rest, s =>
    if cancelled then ⟨s, [], [], none⟩
    else
      let out := pollPR env branches s pr now
      match out.res with
      | .rateLimited t => ⟨out.s, out.evs, out.calls, some t⟩
      | _ =>
        let tail := pollGo env branches now cancelled rest out.s
        ⟨tail.s, out.evs ++ tail.evs, out.calls ++ tail.calls, tail.rl⟩

/-- Embeds `poller.poll` (source lines 68-99): load all tracked items and poll each
in turn.  The cycle is treated as instantaneous at time `now`; `cancelled`
is the (then-constant) answer of `ctx.Err() != nil`. -/
def poll (env : Env) (branches : List String) (s : DBState) (now : Nat)
    (cancelled : Bool) : CycleOut :=
  pollGo env branches now cancelled (DB.ListPRs s) s

/-- Answer of `ctx.Err() != nil` at absolute time `st`, for a context
cancelled at time `cancelTime` (if ever). -/
def ctxCancelled (cancelTime : Option Nat) (st : Nat) : Bool :=
  match cancelTime with
  | some c => c ≤ st
  | none => false

/-- Embeds `poller.runPollCycle` (source lines 50-66): poll, and if rate-limited
wait until the declared reset time before returning, unless the
cancellation signal (at absolute time `cancelTime`) fires first.  The last
component is the absolute time at which the call returns. -/
def runPollCycle (env : Env) (branches : List String) (s : DBState)
    (startTime : Nat) (cancelTime : Option Nat) : CycleOut × Nat :=
  let cancelled := ctxCancelled cancelTime startTime
  let out := poll env branches s startTime cancelled
  match out.rl with
  | none => (out, startTime)
  | some t =>
    if t ≤ startTime then (out, startTime)
    else
      match cancelTime with
      | some c => if c < t then (out, max startTime c) else (out, t)
      | none => (out, t)

/-- Driver loop of `Start` (source lines 32-46): cycle `0` runs immediately
at `t0`; cycle `k+1` starts once cycle `k` has returned and the next tick
(at time `ticks k`) has fired.  Returns the store state at the start of
cycle `k` together with that cycle's start time. -/
def cycleState (env : Env) (branches : List String) (ticks : Nat → Nat)
    (cancelTime : Option Nat) (s0 : DBState) (t0 : Nat) : Nat → DBState × Nat
  | 0 => (s0, t0)
  | k + 1 =>
    let (s, st) := cycleState env branches ticks cancelTime s0 t0 k
    let (out, exit) := runPollCycle env branches s st cancelTime
    (out.s, max exit (ticks k))

/-! ## Landed-flag monotonicity lemmas -/

lemma updRow_keyIs (r : BranchRow) (t : Nat) (n : Int) (b : String) :
    ({ r with landed := true, landedAt := some t } : BranchRow).keyIs n b = r.keyIs n b := rfl

lemma branchLanded_UpdateBranchLanded_mono {s : DBState} {n : Int} {b : String}
    (m : Int) (b2 : String) (t : Nat)
    (h : DB.branchLanded s n b = true) :
    DB.branchLanded (DB.UpdateBranchLanded s m b2 t) n b = true := by
  unfold DB.branchLanded at h ⊢
  obtain ⟨r, hr, hc⟩ := List.any_eq_true.mp h
  have hc2 : r.keyIs n b = true ∧ r.landed = true := by
    simpa using hc
  have hkey : r.keyIs n b = true := hc2.1
  have hld : r.landed = true := hc2.2
  unfold DB.UpdateBranchLanded
  by_cases hg : s.branchRows.any (fun r => r.keyIs m b2) = true
  · rw [if_pos hg]
    refine List.any_eq_true.mpr
      ⟨if r.keyIs m b2 then { r with landed := true, landedAt := some t } else r,
       List.mem_map_of_mem _ hr, ?_⟩
    by_cases hk : r.keyIs m b2 = true
    · rw [if_pos hk]
      show (({ r with landed := true, landedAt := some t } : BranchRow).keyIs n b && true) = true
      rw [updRow_keyIs, Bool.and_true]
      exact hkey
    · rw [if_neg hk]
      exact hc
  · rw [if_neg hg]
    exact List.any_eq_true.mpr ⟨r, List.mem_append_left _ hr, hc⟩

lemma branchLanded_UpdateBranchLanded_self (s : DBState) (n : Int) (b : String) (t : Nat) :
    DB.branchLanded (DB.UpdateBranchLanded s n b t) n b = true := by
  unfold DB.branchLanded DB.UpdateBranchLanded
  by_cases hg : s.branchRows.any (fun r => r.keyIs n b) = true
  · rw [if_pos hg]
    obtain ⟨r, hr, hk⟩ := List.any_eq_true.mp hg
    refine List.any_eq_true.mpr
      ⟨if r.keyIs n b then { r with landed := true, landedAt := some t } else r,
       List.mem_map_of_mem _ hr, ?_⟩
    rw [if_pos hk]
    show (({ r with landed := true, landedAt := some t } : BranchRow).keyIs n b && true) = true
    rw [updRow_keyIs, Bool.and_true]
    exact hk
  · rw [if_neg hg]
    refine List.any_eq_true.mpr ⟨_, List.mem_append_right _ (List.mem_singleton.mpr rfl), ?_⟩
    simp [BranchRow.keyIs]

lemma branchLanded_UpdatePRStatus (s : DBState) (m : Int) (st mc ti au : String)
    (n : Int) (b : String) :
    DB.branchLanded (DB.UpdatePRStatus s m st mc ti au) n b = DB.branchLanded s n b := rfl

lemma branchLanded_UpdateLastChecked (s : DBState) (m : Int) (t : Nat)
    (n : Int) (b : String) :
    DB.branchLanded (DB.UpdateLastChecked s m t) n b = DB.branchLanded s n b := rfl

lemma branchLanded_AddPR (s : DBState) (m : Int) (n : Int) (b : String) :
    DB.branchLanded (DB.AddPR s m) n b = DB.branchLanded s n b := by
  unfold DB.AddPR
  split <;> rfl

lemma branchLanded_RemovePR_ne {s : DBState} {n : Int} {b : String} (m : Int)
    (hne : n ≠ m) (h : DB.branchLanded s n b = true) :
    DB.branchLanded (DB.RemovePR s m) n b = true := by
  unfold DB.branchLanded at h ⊢
  obtain ⟨r, hr, hc⟩ := List.any_eq_true.mp h
  have hc2 : r.keyIs n b = true ∧ r.landed = true := by
    simpa using hc
  have hpn : r.prNumber = n := (BranchRow.keyIs_true_iff.mp hc2.1).1
  refine List.any_eq_true.mpr ⟨r, ?_, hc⟩
  refine List.mem_filter.mpr ⟨hr, ?_⟩
  simp [hpn, hne]

/-! ## Store operations as a closed alphabet (for claim C7) -/

/-- The store operations the system performs (§4.4 of the spec), as an
alphabet of state transformers. -/
inductive StoreOp where
  | addPR (n : Int)
  | removePR (n : Int)
  | updatePRStatus (n : Int) (status mergeCommit title author : String)
  | updateBranchLanded (n : Int) (b : String) (now : Nat)
  | updateLastChecked (n : Int) (now : Nat)
  deriving Repr, DecidableEq

/-- Effect of one store operation. -/
def StoreOp.apply (s : DBState) : StoreOp → DBState
  | .addPR n => DB.AddPR s n
  | .removePR n => DB.RemovePR s n
  | .updatePRStatus n st mc ti au => DB.UpdatePRStatus s n st mc ti au
  | .updateBranchLanded n b t => DB.UpdateBranchLanded s n b t
  | .updateLastChecked n t => DB.UpdateLastChecked s n t

/-- Effect of a sequence of store operations, applied left to right. -/
def applyOps (s : DBState) (ops : List StoreOp) : DBState :=
  ops.foldl StoreOp.apply s

lemma branchLanded_apply_of_ne_remove {s : DBState} {n : Int} {b : String}
    (op : StoreOp) (hop : op ≠ .removePR n)
    (h : DB.branchLanded s n b = true) :
    DB.branchLanded (StoreOp.apply s op) n b = true := by
  cases op with
  | addPR m => rw [StoreOp.apply, branchLanded_AddPR]; exact h
  | removePR m =>
    refine branchLanded_RemovePR_ne m (fun hnm => hop ?_) h
    rw [hnm]
  | updatePRStatus m st mc ti au => rw [StoreOp.apply, branchLanded_UpdatePRStatus]; exact h
  | updateBranchLanded m b2 t => exact branchLanded_UpdateBranchLanded_mono m b2 t h
  | updateLastChecked m t => rw [StoreOp.apply, branchLanded_UpdateLastChecked]; exact h

lemma branchLanded_applyOps {n : Int} {b : String} :
    ∀ (ops : List StoreOp) (s : DBState), DB.branchLanded s n b = true →
      (∀ op ∈ ops, op ≠ StoreOp.removePR n) →
      DB.branchLanded (applyOps s ops) n b = true
  | [], _, h, _ => h
  | op :: ops, s, h, hnr =>
    branchLanded_applyOps ops (StoreOp.apply s op)
      (branchLanded_apply_of_ne_remove op (hnr op (List.mem_cons_self op ops)) h)
      (fun o ho => hnr o (List.mem_cons_of_mem _ ho))

/-! ## Poller preserves landed flags (for claim C7) -/

lemma branchLoop_branchLanded_mono (env : Env) (m : Int) (mc ti au : String) (now : Nat)
    {n : Int} {b : String} :
    ∀ (bs : List String) (s : DBState) (landed : List String),
      DB.branchLanded s n b = true →
      DB.branchLanded (branchLoop env m mc ti au now bs s landed).s n b = true
  | [], _, _, h => h
  | bb :: bs, s, landed, h => by
    unfold branchLoop
    split
    · exact branchLoop_branchLanded_mono env m mc ti au now bs s landed h
    · split
      · exact h
      · exact h
      · split
        · split
          · exact branchLoop_branchLanded_mono env m mc ti au now bs s landed h
          · exact branchLoop_branchLanded_mono env m mc ti au now bs
              (DB.UpdateBranchLanded s m bb now) (landed ++ [bb])
              (branchLanded_UpdateBranchLanded_mono m bb now h)
        · exact branchLoop_branchLanded_mono env m mc ti au now bs s landed h

/-- Either the landed flag survives the removal step, or among its events is
a removed event for that item. -/
lemma removalStep_branchLanded (env : Env) (m : Int) (ti au : String) (now : Nat)
    (branches landed : List String) (s : DBState) {n : Int} {b : String}
    (h : DB.branchLanded s n b = true) :
    DB.branchLanded (removalStep env m ti au now branches landed s).1 n b = true ∨
      ∃ e ∈ (removalStep env m ti au now branches landed s).2,
        e.etype = EventType.PRRemoved ∧ e.PRNumber = n := by
  unfold removalStep
  by_cases hall : (branches.all fun x => landed.contains x) = true
  · rw [if_pos hall]
    by_cases hpn : m = n
    · exact Or.inr ⟨_, List.mem_singleton.mpr rfl, rfl, hpn⟩
    · left
      by_cases hrf : env.removePRFails m = true
      · rw [if_pos hrf]; exact h
      · rw [if_neg hrf]
        exact branchLanded_RemovePR_ne m (fun hh => hpn hh.symm) h
  · rw [if_neg hall]
    exact Or.inl h

/-- Either the landed flag survives `pollPRFrom`, or a removed event for
that very item was published. -/
lemma pollPRFrom_branchLanded (env : Env) (branches : List String) (s : DBState)
    (pr : TrackedPR) (now : Nat) {n : Int} {b : String}
    (h : DB.branchLanded s n b = true) :
    DB.branchLanded (pollPRFrom env branches s pr now).s n b = true ∨
      ∃ e ∈ (pollPRFrom env branches s pr now).evs,
        e.etype = EventType.PRRemoved ∧ e.PRNumber = n := by
  unfold pollPRFrom
  by_cases hm : (pr.Status == "merged" && pr.MergeCommit != "") = true
  · rw [if_pos hm]
    have hloop := branchLoop_branchLanded_mono env pr.PRNumber pr.MergeCommit pr.Title
      pr.Author now branches s (snapshotLanded pr) h
    cases hres : (branchLoop env pr.PRNumber pr.MergeCommit pr.Title pr.Author now
        branches s (snapshotLanded pr)).res with
    | ok =>
      simp only [hres]
      rcases removalStep_branchLanded env pr.PRNumber pr.Title pr.Author now branches
          (branchLoop env pr.PRNumber pr.MergeCommit pr.Title pr.Author now
            branches s (snapshotLanded pr)).landed _ hloop with hl | ⟨e, he, hek⟩
      · exact Or.inl hl
      · exact Or.inr ⟨e, List.mem_append_right _ he, hek⟩
    | err => simp only [hres]; exact Or.inl hloop
    | rateLimited t => simp only [hres]; exact Or.inl hloop
  · rw [if_neg hm]
    exact Or.inl h

/-- Either the landed flag survives `pollPR`, or a removed event for that
item was published. -/
lemma pollPR_branchLanded (env : Env) (branches : List String) (s : DBState)
    (pr : TrackedPR) (now : Nat) {n : Int} {b : String}
    (h : DB.branchLanded s n b = true) :
    DB.branchLanded (pollPR env branches s pr now).s n b = true ∨
      ∃ e ∈ (pollPR env branches s pr now).evs,
        e.etype = EventType.PRRemoved ∧ e.PRNumber = n := by
  unfold pollPR
  split
  · split
    · exact Or.inl h
    · exact Or.inl h
    · rename_i info heq
      split
      · split
        · exact Or.inl h
        · have h1 : DB.branchLanded (DB.UpdatePRStatus s pr.PRNumber "merged"
              info.MergeCommit info.Title info.Author) n b = true := h
          rcases pollPRFrom_branchLanded env branches
              (DB.UpdatePRStatus s pr.PRNumber "merged" info.MergeCommit info.Title
                info.Author)
              ⟨pr.PRNumber, info.Title, info.Author, "merged", info.MergeCommit, pr.Branches⟩
              now h1 with hl | ⟨e, he, hek⟩
          · exact Or.inl hl
          · exact Or.inr ⟨e, List.mem_cons_of_mem _ he, hek⟩
      · split
        · split
          · exact Or.inl h
          · exact Or.inl h
        · split
          · exact Or.inl h
          · exact Or.inl h
  · exact pollPRFrom_branchLanded env branches s pr now h

/-- Either the landed flag survives the whole item loop, or one of the
published events is a removed event for that item. -/
lemma pollGo_branchLanded (env : Env) (branches : List String) (now : Nat)
    (c : Bool) {n : Int} {b : String} :
    ∀ (prs : List TrackedPR) (s : DBState), DB.branchLanded s n b = true →
      DB.branchLanded (pollGo env branches now c prs s).s n b = true ∨
        ∃ e ∈ (pollGo env branches now c prs s).evs,
          e.etype = EventType.PRRemoved ∧ e.PRNumber = n
  | [], _, h => Or.inl h
  | pr :: rest, s, h => by
    unfold pollGo
    by_cases hc : c = true
    · rw [if_pos hc]; exact Or.inl h
    · rw [if_neg hc]
      rcases pollPR_branchLanded env branches s pr now h with hl | ⟨e, he, hek⟩
      · cases hres : (pollPR env branches s pr now).res with
        | rateLimited t => simp only [hres]; exact Or.inl hl
        | ok =>
          simp only [hres]
          rcases pollGo_branchLanded env branches now c rest
              (pollPR env branches s pr now).s hl with hl2 | ⟨e, he, hek⟩
          · exact Or.inl hl2
          · exact Or.inr ⟨e, List.mem_append_right _ he, hek⟩
        | err =>
          simp only [hres]
          rcases pollGo_branchLanded env branches now c rest
              (pollPR env branches s pr now).s hl with hl2 | ⟨e, he, hek⟩
          · exact Or.inl hl2
          · exact Or.inr ⟨e, List.mem_append_right _ he, hek⟩
      · cases hres : (pollPR env branches s pr now).res with
        | rateLimited t => simp only [hres]; exact Or.inr ⟨e, he, hek⟩
        | ok => simp only [hres]; exact Or.inr ⟨e, List.mem_append_left _ he, hek⟩
        | err => simp only [hres]; exact Or.inr ⟨e, List.mem_append_left _ he, hek⟩

/-! ## Claim C7 -/

lemma runPollCycle_fst (env : Env) (branches : List String) (s : DBState) (st : Nat)
    (cancelTime : Option Nat) :
    (runPollCycle env branches s st cancelTime).1 =
      poll env branches s st (ctxCancelled cancelTime st) := by
  unfold runPollCycle
  cases hrl : (poll env branches s st (ctxCancelled cancelTime st)).rl with
  | none => simp [hrl]
  | some t =>
    simp only [hrl]
    by_cases ht : t ≤ st
    · simp [ht]
    · cases cancelTime with
      | none => simp [ht]
      | some c => by_cases hcc : c < t <;> simp [ht, hcc]

/-- Across any run of the driver loop, the landed flag either stays recorded
`true` or some earlier cycle published a removed event for the item. -/
lemma cycleState_branchLanded (env : Env) (branches : List String) (ticks : Nat → Nat)
    (cancelTime : Option Nat) (s0 : DBState) (t0 : Nat) {n : Int} {b : String}
    (h : DB.branchLanded s0 n b = true) :
    ∀ k, DB.branchLanded (cycleState env branches ticks cancelTime s0 t0 k).1 n b = true ∨
      ∃ j, j < k ∧
        ∃ e ∈ (runPollCycle env branches
          (cycleState env branches ticks cancelTime s0 t0 j).1
          (cycleState env branches ticks cancelTime s0 t0 j).2 cancelTime).1.evs,
          e.etype = EventType.PRRemoved ∧ e.PRNumber = n
  | 0 => Or.inl h
  | k + 1 => by
    rcases cycleState_branchLanded env branches ticks cancelTime s0 t0 h k with hl | hr
    · have hstep := pollGo_branchLanded env branches
        (cycleState env branches ticks cancelTime s0 t0 k).2
        (ctxCancelled cancelTime (cycleState env branches ticks cancelTime s0 t0 k).2)
        (DB.ListPRs (cycleState env branches ticks cancelTime s0 t0 k).1)
        (cycleState env branches ticks cancelTime s0 t0 k).1 hl
      have hfst := runPollCycle_fst env branches
        (cycleState env branches ticks cancelTime s0 t0 k).1
        (cycleState env branches ticks cancelTime s0 t0 k).2 cancelTime
      rcases hstep with hland | ⟨e, he, hek⟩
      · left
        show DB.branchLanded (runPollCycle env branches
          (cycleState env branches ticks cancelTime s0 t0 k).1
          (cycleState env branches ticks cancelTime s0 t0 k).2 cancelTime).1.s n b = true
        rw [hfst]
        exact hland
      · right
        refine ⟨k, Nat.lt_succ_self k, e, ?_, hek⟩
        rw [hfst]
        exact he
    · obtain ⟨j, hj, hrest⟩ := hr
      exact Or.inr ⟨j, Nat.lt_succ_of_lt hj, hrest⟩

/-- C7: once the Store records `landed = true` for an (item, branch) pair,
it is never reset to `false`: (1) any sequence of store operations that
does not remove the whole item keeps the flag recorded `true`; (2) a poll
cycle either keeps the flag recorded `true` or has removed the whole item,
publishing a removed event for it; (3) hence over any number of driver
cycles the flag stays recorded `true` unless some cycle removed the item. -/
theorem claim_C7 :
    (∀ (s : DBState) (n : Int) (b : String) (ops : List StoreOp),
      DB.branchLanded s n b = true →
      (∀ op ∈ ops, op ≠ StoreOp.removePR n) →
      DB.branchLanded (applyOps s ops) n b = true) ∧
    (∀ (env : Env) (branches : List String) (s : DBState) (now : Nat) (c : Bool)
      (n : Int) (b : String), DB.branchLanded s n b = true →
      DB.branchLanded (poll env branches s now c).s n b = true ∨
        ∃ e ∈ (poll env branches s now c).evs,
          e.etype = EventType.PRRemoved ∧ e.PRNumber = n) ∧
    (∀ (env : Env) (branches : List String) (ticks : Nat → Nat)
      (cancelTime : Option Nat) (s0 : DBState) (t0 : Nat) (n : Int) (b : String),
      DB.branchLanded s0 n b = true →
      ∀ k, DB.branchLanded (cycleState env branches ticks cancelTime s0 t0 k).1 n b = true ∨
        ∃ j, j < k ∧
          ∃ e ∈ (runPollCycle env branches
            (cycleState env branches ticks cancelTime s0 t0 j).1
            (cycleState env branches ticks cancelTime s0 t0 j).2 cancelTime).1.evs,
            e.etype = EventType.PRRemoved ∧ e.PRNumber = n) :=
  ⟨fun _ n b ops h hnr => branchLanded_applyOps ops _ h hnr,
   fun env branches s now c n b h => pollGo_branchLanded env branches now c _ s h,
   fun env branches ticks cancelTime s0 t0 _ _ h k =>
     cycleState_branchLanded env branches ticks cancelTime s0 t0 h k⟩

/-- Fixture: an environment where every upstream call fails plainly and no
store write fails. -/
def envAllFail : Env where
  getPR _ := GhResult.fail
  isCommitInBranch _ _ := GhResult.fail
  updatePRStatusFails _ := false
  updateBranchLandedFails _ _ := false
  removePRFails _ := false

/-- Fixture: a store tracking item 3 with branch "u" landed at time 0. -/
def sLanded3u : DBState :=
  DB.UpdateBranchLanded (DB.AddPR ⟨[], []⟩ 3) 3 "u" 0

/-- C7 witness: a concrete store where branch "u" of item 3 is landed, a
non-removing operation sequence, and a concrete poll cycle. -/
theorem claim_C7_witness :
    (DB.branchLanded (applyOps sLanded3u
        [StoreOp.updatePRStatus 3 "merged" "sha" "t" "a", StoreOp.addPR 4]) 3 "u" = true) ∧
    (DB.branchLanded (poll envAllFail ["u"] sLanded3u 1 false).s 3 "u" = true ∨
      ∃ e ∈ (poll envAllFail ["u"] sLanded3u 1 false).evs,
        e.etype = EventType.PRRemoved ∧ e.PRNumber = 3) ∧
    (DB.branchLanded (cycleState envAllFail ["u"] (fun _ => 0) none sLanded3u 1 2).1
        3 "u" = true ∨
      ∃ j, j < 2 ∧
        ∃ e ∈ (runPollCycle envAllFail ["u"]
          (cycleState envAllFail ["u"] (fun _ => 0) none sLanded3u 1 j).1
          (cycleState envAllFail ["u"] (fun _ => 0) none sLanded3u 1 j).2 none).1.evs,
          e.etype = EventType.PRRemoved ∧ e.PRNumber = 3) :=
  ⟨claim_C7.1 sLanded3u 3 "u" _ (by decide) (by decide),
   claim_C7.2.1 envAllFail ["u"] sLanded3u 1 false 3 "u" (by decide),
   claim_C7.2.2 envAllFail ["u"] (fun _ => 0) none sLanded3u 1 3 "u" (by decide) 2⟩

/-! ## Claim C1: removal only with every landed flag recorded in the Store -/

/-- Elements of `landedBranches` are store-recorded: every branch the loop
ever treats as landed is landed in the store state the loop has reached,
because membership comes either from the loaded rows or from a successful
`UpdateBranchLanded` write (a failed write is not added to the set). -/
lemma branchLoop_landed_sub (env : Env) (m : Int) (mc ti au : String) (now : Nat) :
    ∀ (bs : List String) (s : DBState) (landed : List String),
      (∀ x, landed.contains x = true → DB.branchLanded s m x = true) →
      ∀ x, (branchLoop env m mc ti au now bs s landed).landed.contains x = true →
        DB.branchLanded (branchLoop env m mc ti au now bs s landed).s m x = true
  | [], _, _, h0 => h0
  | bb :: bs, s, landed, h0 => by
    unfold branchLoop
    split
    · exact branchLoop_landed_sub env m mc ti au now bs s landed h0
    · split
      · exact h0
      · exact h0
      · split
        · split
          · exact branchLoop_landed_sub env m mc ti au now bs s landed h0
          · refine branchLoop_landed_sub env m mc ti au now bs
              (DB.UpdateBranchLanded s m bb now) (landed ++ [bb]) ?_
            intro x hx
            rcases List.mem_append.mp (List.mem_of_elem_eq_true hx) with hmem | hmem
            · exact branchLanded_UpdateBranchLanded_mono m bb now
                (h0 x (List.elem_iff.mpr hmem))
            · rw [List.mem_singleton.mp hmem]
              exact branchLanded_UpdateBranchLanded_self s m bb now
        · exact branchLoop_landed_sub env m mc ti au now bs s landed h0

/-- Events published from inside the branch loop are all branch-landing
events. -/
lemma branchLoop_evs_kind (env : Env) (m : Int) (mc ti au : String) (now : Nat) :
    ∀ (bs : List String) (s : DBState) (landed : List String),
      ∀ e ∈ (branchLoop env m mc ti au now bs s landed).evs,
        e.etype = EventType.PRLandedBranch
  | [], _, _, e => by
    intro he
    exact absurd he (by simp [branchLoop])
  | bb :: bs, s, landed, e => by
    intro he
    revert he
    unfold branchLoop
    split
    · exact branchLoop_evs_kind env m mc ti au now bs s landed e
    · split
      · intro he; exact absurd he (by simp)
      · intro he; exact absurd he (by simp)
      · split
        · split
          · exact branchLoop_evs_kind env m mc ti au now bs s landed e
          · intro he
            rcases List.mem_cons.mp he with rfl | he2
            · rfl
            · exact branchLoop_evs_kind env m mc ti au now bs
                (DB.UpdateBranchLanded s m bb now) (landed ++ [bb]) e he2
        · exact branchLoop_evs_kind env m mc ti au now bs s landed e

/-- C1: the poller publishes a removed event for an item only when, at the
moment the removal decision is taken, every monitored branch is recorded
landed in the Store state the branch loop has produced — the in-memory
`landedBranches` set never outruns the Store, because it is seeded from
loaded rows (assumed consistent with the Store) and extended only after a
successful Store write. -/
theorem claim_C1 (env : Env) (branches : List String) (s : DBState) (pr : TrackedPR)
    (now : Nat)
    (hsnap : ∀ x, (snapshotLanded pr).contains x = true →
      DB.branchLanded s pr.PRNumber x = true)
    (e : Event) (he : e ∈ (pollPRFrom env branches s pr now).evs)
    (het : e.etype = EventType.PRRemoved) :
    ∀ b ∈ branches,
      DB.branchLanded (branchLoop env pr.PRNumber pr.MergeCommit pr.Title pr.Author now
        branches s (snapshotLanded pr)).s pr.PRNumber b = true := by
  unfold pollPRFrom at he
  by_cases hm : (pr.Status == "merged" && pr.MergeCommit != "") = true
  · rw [if_pos hm] at he
    cases hres : (branchLoop env pr.PRNumber pr.MergeCommit pr.Title pr.Author now
        branches s (snapshotLanded pr)).res with
    | ok =>
      simp only [hres] at he
      rcases List.mem_append.mp he with hbl | hrm
      · have := branchLoop_evs_kind env pr.PRNumber pr.MergeCommit pr.Title pr.Author now
          branches s (snapshotLanded pr) e hbl
        rw [het] at this
        exact absurd this (by simp)
      · unfold removalStep at hrm
        by_cases hall : (branches.all fun x => (branchLoop env pr.PRNumber pr.MergeCommit
            pr.Title pr.Author now branches s (snapshotLanded pr)).landed.contains x) = true
        · intro b hb
          exact branchLoop_landed_sub env pr.PRNumber pr.MergeCommit pr.Title pr.Author now
            branches s (snapshotLanded pr) hsnap b (List.all_eq_true.mp hall b hb)
        · rw [if_neg hall] at hrm
          exact absurd hrm (by simp)
    | err =>
      simp only [hres] at he
      have := branchLoop_evs_kind env pr.PRNumber pr.MergeCommit pr.Title pr.Author now
        branches s (snapshotLanded pr) e he
      rw [het] at this
      exact absurd this (by simp)
    | rateLimited t =>
      simp only [hres] at he
      have := branchLoop_evs_kind env pr.PRNumber pr.MergeCommit pr.Title pr.Author now
        branches s (snapshotLanded pr) e he
      rw [het] at this
      exact absurd this (by simp)
  · rw [if_neg hm] at he
    exact absurd he (by simp)

/-- Fixture: the upstream status of item 5 — merged with commit "sha1". -/
def infoMerged5 : PRInfo where
  Number := 5
  Title := "T"
  Author := "A"
  State := "open"
  Merged := true
  MergeCommit := "sha1"

/-- Fixture: an environment where every branch compare reports the commit
present and no store write fails. -/
def envAllOk : Env where
  getPR _ := GhResult.ok infoMerged5
  isCommitInBranch _ _ := GhResult.ok true
  updatePRStatusFails _ := false
  updateBranchLandedFails _ _ := false
  removePRFails _ := false

/-- Fixture: a store tracking item 5 already merged with commit "sha1". -/
def sMerged5 : DBState :=
  DB.UpdatePRStatus (DB.AddPR ⟨[], []⟩ 5) 5 "merged" "sha1" "T" "A"

/-- Fixture: the in-memory view of item 5 as loaded from `sMerged5`. -/
def prMerged5 : TrackedPR :=
  { PRNumber := 5, Title := "T", Author := "A", Status := "merged",
    MergeCommit := "sha1", Branches := [] }

/-- C1 witness: on a concrete merged item whose removal event is published,
the monitored branch is indeed recorded landed in the Store at the removal
decision. -/
theorem claim_C1_witness :
    DB.branchLanded (branchLoop envAllOk prMerged5.PRNumber prMerged5.MergeCommit
      prMerged5.Title prMerged5.Author 7 ["u"] sMerged5
      (snapshotLanded prMerged5)).s prMerged5.PRNumber "u" = true :=
  claim_C1 envAllOk ["u"] sMerged5 prMerged5 7
    (fun x hx => absurd hx (by simp [snapshotLanded, prMerged5]))
    { etype := EventType.PRRemoved, PRNumber := 5, Title := "T", Author := "A",
      Branch := "", Timestamp := 7 }
    (by decide) rfl "u" (by decide)

/-! ## Claim C3: rate-limit backoff -/

lemma pollGo_rl_stop (env : Env) (branches : List String) (now : Nat) (pr : TrackedPR)
    (rest : List TrackedPR) (s : DBState) (t : Nat)
    (h : (pollPR env branches s pr now).res = PollRes.rateLimited t) :
    pollGo env branches now false (pr :: rest) s =
      ⟨(pollPR env branches s pr now).s, (pollPR env branches s pr now).evs,
       (pollPR env branches s pr now).calls, some t⟩ := by
  unfold pollGo
  simp [h]

lemma runPollCycle_exit_ge_start (env : Env) (branches : List String) (s : DBState)
    (st : Nat) (cancelTime : Option Nat) :
    st ≤ (runPollCycle env branches s st cancelTime).2 := by
  unfold runPollCycle
  cases hrl : (poll env branches s st (ctxCancelled cancelTime st)).rl with
  | none => simp [hrl]
  | some t =>
    simp only [hrl]
    by_cases ht : t ≤ st
    · simp [ht]
    · cases cancelTime with
      | none => simp [ht]; omega
      | some c =>
        by_cases hcc : c < t <;> simp [ht, hcc] <;> omega

lemma runPollCycle_exit_ge_reset (env : Env) (branches : List String) (s : DBState)
    (st : Nat) (T : Nat) (h : (poll env branches s st false).rl = some T) :
    T ≤ (runPollCycle env branches s st none).2 := by
  unfold runPollCycle
  simp only [ctxCancelled, h]
  by_cases ht : T ≤ st
  · simp [ht]
  · simp [ht]

lemma cycleState_start_mono (env : Env) (branches : List String) (ticks : Nat → Nat)
    (cancelTime : Option Nat) (s0 : DBState) (t0 : Nat) (k : Nat) :
    (cycleState env branches ticks cancelTime s0 t0 k).2 ≤
      (cycleState env branches ticks cancelTime s0 t0 (k + 1)).2 := by
  show (cycleState env branches ticks cancelTime s0 t0 k).2 ≤
    max (runPollCycle env branches (cycleState env branches ticks cancelTime s0 t0 k).1
      (cycleState env branches ticks cancelTime s0 t0 k).2 cancelTime).2 (ticks k)
  exact le_trans (runPollCycle_exit_ge_start env branches _ _ cancelTime) (le_max_left _ _)

/-- C3: (1) a rate-limited item ends the cycle at once — the remaining items
of that cycle generate no store writes, events or upstream calls; (2) with
no cancellation, every later cycle starts at or after the declared reset
time `T`, even though ticks may already have fired; (3) a cancellation
signal arriving at time `c` before the reset time ends the backoff wait at
`c`, earlier than `T`. -/
theorem claim_C3 :
    (∀ (env : Env) (branches : List String) (now : Nat) (pr : TrackedPR)
      (rest : List TrackedPR) (s : DBState) (t : Nat),
      (pollPR env branches s pr now).res = PollRes.rateLimited t →
      pollGo env branches now false (pr :: rest) s =
        ⟨(pollPR env branches s pr now).s, (pollPR env branches s pr now).evs,
         (pollPR env branches s pr now).calls, some t⟩) ∧
    (∀ (env : Env) (branches : List String) (ticks : Nat → Nat) (s0 : DBState)
      (t0 k T : Nat),
      (poll env branches (cycleState env branches ticks none s0 t0 k).1
        (cycleState env branches ticks none s0 t0 k).2 false).rl = some T →
      ∀ j, k < j → T ≤ (cycleState env branches ticks none s0 t0 j).2) ∧
    (∀ (env : Env) (branches : List String) (s : DBState) (st c t : Nat),
      st < c → c < t → (poll env branches s st false).rl = some t →
      (runPollCycle env branches s st (some c)).2 = c) := by
  refine ⟨pollGo_rl_stop, ?_, ?_⟩
  · intro env branches ticks s0 t0 k T h j hj
    induction j with
    | zero => omega
    | succ j ih =>
      rcases Nat.lt_succ_iff_lt_or_eq.mp hj with hlt | heq
      · exact le_trans (ih hlt) (cycleState_start_mono env branches ticks none s0 t0 j)
      · subst heq
        exact le_trans (runPollCycle_exit_ge_reset env branches _ _ T h)
          (le_max_left _ (ticks k))
  · intro env branches s st c t hst hct h
    have hdec : (decide (c ≤ st)) = false := by
      simp [Nat.not_le.mpr hst]
    unfold runPollCycle
    simp only [ctxCancelled, hdec, h]
    have h1 : ¬ t ≤ st := by omega
    simp [h1, hct]
    omega

/-- Fixture: an environment whose every upstream call reports rate limiting
with reset time 100. -/
def envRL : Env where
  getPR _ := GhResult.rateLimited 100
  isCommitInBranch _ _ := GhResult.rateLimited 100
  updatePRStatusFails _ := false
  updateBranchLandedFails _ _ := false
  removePRFails _ := false

/-- Fixture: a store tracking the single open item 3. -/
def sOpen3 : DBState := DB.AddPR ⟨[], []⟩ 3

/-- Fixture: the in-memory view of item 3 as loaded from `sOpen3`. -/
def prOpen3 : TrackedPR :=
  { PRNumber := 3, Title := "", Author := "", Status := "open",
    MergeCommit := "", Branches := [] }

/-- C3 witness: the three parts of the rate-limit policy evaluated on a
concrete rate-limited run. -/
theorem claim_C3_witness :
    (pollGo envRL ["u"] 1 false [prOpen3, prOpen3] sOpen3 =
      ⟨(pollPR envRL ["u"] sOpen3 prOpen3 1).s, (pollPR envRL ["u"] sOpen3 prOpen3 1).evs,
       (pollPR envRL ["u"] sOpen3 prOpen3 1).calls, some 100⟩) ∧
    (100 : Nat) ≤ (cycleState envRL ["u"] (fun _ => 0) none sOpen3 1 1).2 ∧
    (runPollCycle envRL ["u"] sOpen3 1 (some 5)).2 = 5 :=
  ⟨claim_C3.1 envRL ["u"] 1 prOpen3 [prOpen3] sOpen3 100 (by decide),
   claim_C3.2.1 envRL ["u"] (fun _ => 0) sOpen3 1 0 100 (by decide) 1 (by decide),
   claim_C3.2.2 envRL ["u"] sOpen3 1 5 100 (by decide) (by decide) (by decide)⟩

/-! ## Claim C6: partial-failure isolation -/

lemma branchLoop_abort_on_fail (env : Env) (n : Int) (mc ti au : String) (now : Nat)
    (b : String) (bs2 : List String) (s : DBState) (landed : List String)
    (hskip : landed.contains b = false)
    (hfail : env.isCommitInBranch mc b = GhResult.fail) :
    branchLoop env n mc ti au now (b :: bs2) s landed =
      ⟨s, [], [Call.compare mc b], landed, PollRes.err⟩ := by
  unfold branchLoop
  rw [if_neg (fun hh => Bool.false_ne_true (hskip ▸ hh)), hfail]

lemma pollPRFrom_err_no_removal (env : Env) (branches : List String) (s : DBState)
    (pr : TrackedPR) (now : Nat)
    (herr : (pollPRFrom env branches s pr now).res = PollRes.err) :
    (pollPRFrom env branches s pr now).s =
      (branchLoop env pr.PRNumber pr.MergeCommit pr.Title pr.Author now branches s
        (snapshotLanded pr)).s ∧
    ∀ e ∈ (pollPRFrom env branches s pr now).evs, e.etype = EventType.PRLandedBranch := by
  unfold pollPRFrom at herr ⊢
  by_cases hm : (pr.Status == "merged" && pr.MergeCommit != "") = true
  · rw [if_pos hm] at herr ⊢
    cases hres : (branchLoop env pr.PRNumber pr.MergeCommit pr.Title pr.Author now
        branches s (snapshotLanded pr)).res with
    | ok => simp [hres] at herr
    | err =>
      simp only [hres]
      refine ⟨by trivial, fun e he => branchLoop_evs_kind env pr.PRNumber pr.MergeCommit
        pr.Title pr.Author now branches s (snapshotLanded pr) e ?_⟩
      simpa using he
    | rateLimited t => simp [hres] at herr
  · rw [if_neg hm] at herr
    simp at herr

/-- C6: partial failures are isolated per item: (1) a plain failure while
checking a branch aborts the remaining branch checks of that item on the
spot — no further calls, events or writes for it; (2) an item whose result
is a plain error performs no removal — its store state is exactly the
branch loop's and its events are all branch-landing events; (3) in a cycle
over items A then B, when A ends in a plain error B is still processed in
full, on the store state A left behind. -/
theorem claim_C6 :
    (∀ (env : Env) (n : Int) (mc ti au : String) (now : Nat) (b : String)
      (bs2 : List String) (s : DBState) (landed : List String),
      landed.contains b = false → env.isCommitInBranch mc b = GhResult.fail →
      branchLoop env n mc ti au now (b :: bs2) s landed =
        ⟨s, [], [Call.compare mc b], landed, PollRes.err⟩) ∧
    (∀ (env : Env) (branches : List String) (s : DBState) (pr : TrackedPR) (now : Nat),
      (pollPRFrom env branches s pr now).res = PollRes.err →
      (pollPRFrom env branches s pr now).s =
        (branchLoop env pr.PRNumber pr.MergeCommit pr.Title pr.Author now branches s
          (snapshotLanded pr)).s ∧
      ∀ e ∈ (pollPRFrom env branches s pr now).evs,
        e.etype = EventType.PRLandedBranch) ∧
    (∀ (env : Env) (branches : List String) (s : DBState) (now : Nat)
      (prA prB : TrackedPR),
      DB.ListPRs s = [prA, prB] →
      (pollPR env branches s prA now).res = PollRes.err →
      poll env branches s now false =
        ⟨(pollPR env branches (pollPR env branches s prA now).s prB now).s,
         (pollPR env branches s prA now).evs ++
           (pollPR env branches (pollPR env branches s prA now).s prB now).evs,
         (pollPR env branches s prA now).calls ++
           (pollPR env branches (pollPR env branches s prA now).s prB now).calls,
         (pollPR env branches (pollPR env branches s prA now).s prB now).res.rlTime⟩) := by
  refine ⟨branchLoop_abort_on_fail, pollPRFrom_err_no_removal, ?_⟩
  intro env branches s now prA prB hlist herr
  unfold poll
  rw [hlist]
  unfold pollGo
  simp only [Bool.false_eq_true, if_false, herr]
  unfold pollGo
  simp only [Bool.false_eq_true, if_false]
  cases hres2 : (pollPR env branches (pollPR env branches s prA now).s prB now).res with
  | ok => simp [hres2, PollRes.rlTime, pollGo]
  | err => simp [hres2, PollRes.rlTime, pollGo]
  | rateLimited t => simp [hres2, PollRes.rlTime]

/-- Fixture: compare fails for commit "a" but succeeds for any other commit;
status fetches fail; no store write fails. -/
def envFailA : Env where
  getPR _ := GhResult.fail
  isCommitInBranch sha _ := if sha == "a" then GhResult.fail else GhResult.ok true
  updatePRStatusFails _ := false
  updateBranchLandedFails _ _ := false
  removePRFails _ := false

/-- Fixture: a store tracking merged items 2 (commit "a") and 1 (commit "b"). -/
def sTwoMerged : DBState :=
  DB.UpdatePRStatus
    (DB.UpdatePRStatus (DB.AddPR (DB.AddPR ⟨[], []⟩ 1) 2) 2 "merged" "a" "tA" "uA")
    1 "merged" "b" "tB" "uB"

/-- Fixture: the in-memory view of item 2 as loaded from `sTwoMerged`. -/
def prM2 : TrackedPR :=
  { PRNumber := 2, Title := "tA", Author := "uA", Status := "merged",
    MergeCommit := "a", Branches := [] }

/-- Fixture: the in-memory view of item 1 as loaded from `sTwoMerged`. -/
def prM1 : TrackedPR :=
  { PRNumber := 1, Title := "tB", Author := "uB", Status := "merged",
    MergeCommit := "b", Branches := [] }

/-- C6 witness: the three isolation facts evaluated on a concrete cycle in
which item 2 fails its branch check and item 1 still lands and is removed. -/
theorem claim_C6_witness :
    (branchLoop envFailA 2 "a" "tA" "uA" 9 ["u", "v"] sTwoMerged [] =
      ⟨sTwoMerged, [], [Call.compare "a" "u"], [], PollRes.err⟩) ∧
    ((pollPRFrom envFailA ["u"] sTwoMerged prM2 9).s =
      (branchLoop envFailA prM2.PRNumber prM2.MergeCommit prM2.Title prM2.Author 9 ["u"]
        sTwoMerged (snapshotLanded prM2)).s ∧
      ∀ e ∈ (pollPRFrom envFailA ["u"] sTwoMerged prM2 9).evs,
        e.etype = EventType.PRLandedBranch) ∧
    (poll envFailA ["u"] sTwoMerged 9 false =
      ⟨(pollPR envFailA ["u"] (pollPR envFailA ["u"] sTwoMerged prM2 9).s prM1 9).s,
       (pollPR envFailA ["u"] sTwoMerged prM2 9).evs ++
         (pollPR envFailA ["u"] (pollPR envFailA ["u"] sTwoMerged prM2 9).s prM1 9).evs,
       (pollPR envFailA ["u"] sTwoMerged prM2 9).calls ++
         (pollPR envFailA ["u"] (pollPR envFailA ["u"] sTwoMerged prM2 9).s prM1 9).calls,
       (pollPR envFailA ["u"] (pollPR envFailA ["u"] sTwoMerged prM2 9).s prM1 9).res.rlTime⟩) :=
  ⟨claim_C6.1 envFailA 2 "a" "tA" "uA" 9 "u" ["v"] sTwoMerged [] (by decide) (by decide),
   claim_C6.2.1 envFailA ["u"] sTwoMerged prM2 9 (by decide),
   claim_C6.2.2 envFailA ["u"] sTwoMerged 9 prM2 prM1 (by decide) (by decide)⟩

/-! ## Claim C8: merged items are branch-checked in the same cycle -/

/-- When every compare answers and no branch is skipped, the loop issues
exactly one compare call per monitored branch, in order, all against the
same commit. -/
lemma branchLoop_calls (env : Env) (n : Int) (mc ti au : String) (now : Nat) :
    ∀ (bs : List String) (s : DBState) (landed : List String),
      (∀ b ∈ bs, ∃ v, env.isCommitInBranch mc b = GhResult.ok v) →
      (∀ b ∈ bs, b ∉ landed) →
      bs.Nodup →
      (branchLoop env n mc ti au now bs s landed).calls =
        bs.map (fun b => Call.compare mc b)
  | [], _, _, _, _, _ => rfl
  | bb :: bs, s, landed, hcmp, hnotin, hnd => by
    unfold branchLoop
    rw [if_neg (fun hh => hnotin bb (List.mem_cons_self bb bs)
      (List.mem_of_elem_eq_true hh))]
    obtain ⟨v, hv⟩ := hcmp bb (List.mem_cons_self bb bs)
    rw [hv]
    have hcmp2 : ∀ b ∈ bs, ∃ v, env.isCommitInBranch mc b = GhResult.ok v :=
      fun b hb => hcmp b (List.mem_cons_of_mem _ hb)
    have hnotin2 : ∀ b ∈ bs, b ∉ landed :=
      fun b hb => hnotin b (List.mem_cons_of_mem _ hb)
    cases v with
    | false =>
      show Call.compare mc bb :: (branchLoop env n mc ti au now bs s landed).calls = _
      rw [branchLoop_calls env n mc ti au now bs s landed hcmp2 hnotin2 hnd.of_cons]
      rfl
    | true =>
      by_cases hf : env.updateBranchLandedFails n bb = true
      · rw [hf]
        show Call.compare mc bb :: (branchLoop env n mc ti au now bs s landed).calls = _
        rw [branchLoop_calls env n mc ti au now bs s landed hcmp2 hnotin2 hnd.of_cons]
        rfl
      · have hf2 : env.updateBranchLandedFails n bb = false := by
          simpa using hf
        rw [hf2]
        have hnotin3 : ∀ b ∈ bs, b ∉ landed ++ [bb] := by
          intro b hb hmem
          rcases List.mem_append.mp hmem with hl | hr
          · exact hnotin2 b hb hl
          · rw [List.mem_singleton.mp hr] at hb
            exact (List.nodup_cons.mp hnd).1 hb
        show Call.compare mc bb ::
          (branchLoop env n mc ti au now bs (DB.UpdateBranchLanded s n bb now)
            (landed ++ [bb])).calls = _
        rw [branchLoop_calls env n mc ti au now bs (DB.UpdateBranchLanded s n bb now)
          (landed ++ [bb]) hcmp2 hnotin3 hnd.of_cons]
        rfl

/-- Every event of `pollPRFrom` is a branch-landing or a removal event. -/
lemma pollPRFrom_evs_kind (env : Env) (branches : List String) (s : DBState)
    (pr : TrackedPR) (now : Nat) :
    ∀ e ∈ (pollPRFrom env branches s pr now).evs,
      e.etype = EventType.PRLandedBranch ∨ e.etype = EventType.PRRemoved := by
  intro e he
  unfold pollPRFrom at he
  by_cases hm : (pr.Status == "merged" && pr.MergeCommit != "") = true
  · rw [if_pos hm] at he
    cases hres : (branchLoop env pr.PRNumber pr.MergeCommit pr.Title pr.Author now
        branches s (snapshotLanded pr)).res with
    | ok =>
      simp only [hres] at he
      rcases List.mem_append.mp he with hbl | hrm
      · exact Or.inl (branchLoop_evs_kind env pr.PRNumber pr.MergeCommit pr.Title
          pr.Author now branches s (snapshotLanded pr) e hbl)
      · unfold removalStep at hrm
        by_cases hall : (branches.all fun x => (branchLoop env pr.PRNumber pr.MergeCommit
            pr.Title pr.Author now branches s (snapshotLanded pr)).landed.contains x) = true
        · rw [if_pos hall] at hrm
          rw [List.mem_singleton.mp hrm]
          exact Or.inr rfl
        · rw [if_neg hall] at hrm
          exact absurd hrm (by simp)
    | err =>
      simp only [hres] at he
      exact Or.inl (branchLoop_evs_kind env pr.PRNumber pr.MergeCommit pr.Title
        pr.Author now branches s (snapshotLanded pr) e he)
    | rateLimited t =>
      simp only [hres] at he
      exact Or.inl (branchLoop_evs_kind env pr.PRNumber pr.MergeCommit pr.Title
        pr.Author now branches s (snapshotLanded pr) e he)
  · rw [if_neg hm] at he
    exact absurd he (by simp)

/-- The calls of `pollPRFrom`, once its guard holds, are exactly the branch
loop's calls, whatever the removal step does. -/
lemma pollPRFrom_calls_of_merged (env : Env) (branches : List String) (s : DBState)
    (pr : TrackedPR) (now : Nat)
    (hm : (pr.Status == "merged" && pr.MergeCommit != "") = true) :
    (pollPRFrom env branches s pr now).calls =
      (branchLoop env pr.PRNumber pr.MergeCommit pr.Title pr.Author now branches s
        (snapshotLanded pr)).calls := by
  unfold pollPRFrom
  rw [if_pos hm]
  cases hres : (branchLoop env pr.PRNumber pr.MergeCommit pr.Title pr.Author now
      branches s (snapshotLanded pr)).res with
  | ok => simp only [hres]
  | err => simp only [hres]
  | rateLimited t => simp only [hres]

/-- C8: an open item found merged is, in that same `pollPR` call: persisted
as merged with the fresh merge commit, title and author (the store update
the rest of the call runs on); announced by exactly one merged event; and
branch-checked against every monitored branch using the freshly learned
merge commit, without waiting for the next cycle. -/
theorem claim_C8 (env : Env) (branches : List String) (s : DBState) (pr : TrackedPR)
    (now : Nat) (info : PRInfo)
    (hopen : pr.Status = "open")
    (hget : env.getPR pr.PRNumber = GhResult.ok info)
    (hmerged : info.Merged = true)
    (hmc : info.MergeCommit ≠ "")
    (hupd : env.updatePRStatusFails pr.PRNumber = false)
    (hfresh : pr.Branches = [])
    (hnodup : branches.Nodup)
    (hcmp : ∀ b ∈ branches, ∃ v, env.isCommitInBranch info.MergeCommit b = GhResult.ok v) :
    pollPR env branches s pr now =
      ⟨(pollPRFrom env branches
          (DB.UpdatePRStatus s pr.PRNumber "merged" info.MergeCommit info.Title info.Author)
          ⟨pr.PRNumber, info.Title, info.Author, "merged", info.MergeCommit, pr.Branches⟩
          now).s,
        { etype := EventType.PRMerged, PRNumber := pr.PRNumber, Title := info.Title,
          Author := info.Author, Timestamp := now } ::
          (pollPRFrom env branches
            (DB.UpdatePRStatus s pr.PRNumber "merged" info.MergeCommit info.Title info.Author)
            ⟨pr.PRNumber, info.Title, info.Author, "merged", info.MergeCommit, pr.Branches⟩
            now).evs,
        Call.getPR pr.PRNumber ::
          (pollPRFrom env branches
            (DB.UpdatePRStatus s pr.PRNumber "merged" info.MergeCommit info.Title info.Author)
            ⟨pr.PRNumber, info.Title, info.Author, "merged", info.MergeCommit, pr.Branches⟩
            now).calls,
        (pollPRFrom env branches
          (DB.UpdatePRStatus s pr.PRNumber "merged" info.MergeCommit info.Title info.Author)
          ⟨pr.PRNumber, info.Title, info.Author, "merged", info.MergeCommit, pr.Branches⟩
          now).res⟩ ∧
    (pollPR env branches s pr now).evs.filter (fun e => e.etype == EventType.PRMerged) =
      [{ etype := EventType.PRMerged, PRNumber := pr.PRNumber, Title := info.Title,
         Author := info.Author, Timestamp := now }] ∧
    (pollPR env branches s pr now).calls =
      Call.getPR pr.PRNumber :: branches.map (fun b => Call.compare info.MergeCommit b) := by
  have hopen2 : (pr.Status == "open") = true := by rw [hopen]; rfl
  have hguard : ((("merged" : String) == "merged") && (info.MergeCommit != "")) = true := by
    have : (info.MergeCommit == "") = false := beq_eq_false_iff_ne.mpr hmc
    simp [bne, this]
  have h1 : pollPR env branches s pr now =
      ⟨(pollPRFrom env branches
          (DB.UpdatePRStatus s pr.PRNumber "merged" info.MergeCommit info.Title info.Author)
          ⟨pr.PRNumber, info.Title, info.Author, "merged", info.MergeCommit, pr.Branches⟩
          now).s,
        { etype := EventType.PRMerged, PRNumber := pr.PRNumber, Title := info.Title,
          Author := info.Author, Timestamp := now } ::
          (pollPRFrom env branches
            (DB.UpdatePRStatus s pr.PRNumber "merged" info.MergeCommit info.Title info.Author)
            ⟨pr.PRNumber, info.Title, info.Author, "merged", info.MergeCommit, pr.Branches⟩
            now).evs,
        Call.getPR pr.PRNumber ::
          (pollPRFrom env branches
            (DB.UpdatePRStatus s pr.PRNumber "merged" info.MergeCommit info.Title info.Author)
            ⟨pr.PRNumber, info.Title, info.Author, "merged", info.MergeCommit, pr.Branches⟩
            now).calls,
        (pollPRFrom env branches
          (DB.UpdatePRStatus s pr.PRNumber "merged" info.MergeCommit info.Title info.Author)
          ⟨pr.PRNumber, info.Title, info.Author, "merged", info.MergeCommit, pr.Branches⟩
          now).res⟩ := by
    unfold pollPR
    rw [if_pos hopen2, hget]
    simp only [hmerged, if_true, hupd, Bool.false_eq_true, if_false]
  refine ⟨h1, ?_, ?_⟩
  · rw [h1]
    show List.filter _ (_ :: _) = _
    rw [List.filter_cons]
    simp only [beq_self_eq_true, if_true]
    have hnil : (pollPRFrom env branches
        (DB.UpdatePRStatus s pr.PRNumber "merged" info.MergeCommit info.Title info.Author)
        ⟨pr.PRNumber, info.Title, info.Author, "merged", info.MergeCommit, pr.Branches⟩
        now).evs.filter (fun e => e.etype == EventType.PRMerged) = [] := by
      rw [List.filter_eq_nil_iff]
      intro e he hbeq
      rcases pollPRFrom_evs_kind env branches _ _ now e he with hk | hk <;>
        rw [hk] at hbeq <;> exact absurd hbeq (by decide)
    rw [hnil]
  · rw [h1]
    show Call.getPR pr.PRNumber :: _ = _
    have hsnap : snapshotLanded
        ⟨pr.PRNumber, info.Title, info.Author, "merged", info.MergeCommit, pr.Branches⟩ =
        [] := by
      simp [snapshotLanded, hfresh]
    rw [pollPRFrom_calls_of_merged env branches _ _ now hguard]
    rw [hsnap]
    rw [branchLoop_calls env pr.PRNumber info.MergeCommit info.Title info.Author now
      branches _ [] hcmp (by simp) hnodup]

/-- Fixture: the in-memory view of item 5 while still open. -/
def prOpen5 : TrackedPR :=
  { PRNumber := 5, Title := "", Author := "", Status := "open",
    MergeCommit := "", Branches := [] }

/-- Fixture: a store tracking the single open item 5. -/
def sOpen5 : DBState := DB.AddPR ⟨[], []⟩ 5

/-- C8 witness: a concrete open item reported merged is persisted, announced
once, and branch-checked against both monitored branches the same call. -/
theorem claim_C8_witness :
    pollPR envAllOk ["u", "v"] sOpen5 prOpen5 7 =
      ⟨(pollPRFrom envAllOk ["u", "v"]
          (DB.UpdatePRStatus sOpen5 5 "merged" "sha1" "T" "A")
          ⟨5, "T", "A", "merged", "sha1", []⟩ 7).s,
        { etype := EventType.PRMerged, PRNumber := 5, Title := "T",
          Author := "A", Timestamp := 7 } ::
          (pollPRFrom envAllOk ["u", "v"]
            (DB.UpdatePRStatus sOpen5 5 "merged" "sha1" "T" "A")
            ⟨5, "T", "A", "merged", "sha1", []⟩ 7).evs,
        Call.getPR 5 ::
          (pollPRFrom envAllOk ["u", "v"]
            (DB.UpdatePRStatus sOpen5 5 "merged" "sha1" "T" "A")
            ⟨5, "T", "A", "merged", "sha1", []⟩ 7).calls,
        (pollPRFrom envAllOk ["u", "v"]
          (DB.UpdatePRStatus sOpen5 5 "merged" "sha1" "T" "A")
          ⟨5, "T", "A", "merged", "sha1", []⟩ 7).res⟩ ∧
    (pollPR envAllOk ["u", "v"] sOpen5 prOpen5 7).evs.filter
        (fun e => e.etype == EventType.PRMerged) =
      [{ etype := EventType.PRMerged, PRNumber := 5, Title := "T",
         Author := "A", Timestamp := 7 }] ∧
    (pollPR envAllOk ["u", "v"] sOpen5 prOpen5 7).calls =
      Call.getPR 5 :: [Call.compare "sha1" "u", Call.compare "sha1" "v"] :=
  claim_C8 envAllOk ["u", "v"] sOpen5 prOpen5 7 infoMerged5 rfl rfl rfl
    (by decide) rfl rfl (by decide)
    (fun b _ => ⟨true, rfl⟩)

/-! ## Event bus (internal/event)

A Go handler is `func(Event)`: it returns nothing, its observable behaviour
is its side effects plus a possible panic.  A handler is therefore embedded
as a state transformer `Event → σ → σ × Option String`, where `some msg`
is a panic.  `Bus.Publish` runs `h(e)` for each registered handler in
order with no `recover`, so a panic ends the loop and escapes to the
caller. -/

/-- Go `event.Handler`, with explicit side-effect state and panic. -/
def Handler (σ : Type) := Event → σ → σ × Option String

/-- Go `(*Bus).Subscribe`: appends the handler. -/
def Bus.Subscribe {σ : Type} (handlers : List (Handler σ)) (h : Handler σ) :
    List (Handler σ) :=
  handlers ++ [h]

/-- Go `(*Bus).Publish`: run each handler on the event, in subscription
order; there is no recovery, so a panicking handler stops the loop and the
panic propagates to the publisher. -/
def Bus.Publish {σ : Type} : List (Handler σ) → Event → σ → σ × Option String
  | [], _, s => (s, none)
  | h :: hs, e, s =>
    let r := h e s
    match r.2 with
    | none => Bus.Publish hs e r.1
    | some p => (r.1, some p)

/-- Fixture: a handler that records 1 and succeeds. -/
def hLog1 : Handler (List Nat) := fun _ s => (s ++ [1], none)

/-- Fixture: a handler that records 2 and succeeds. -/
def hLog2 : Handler (List Nat) := fun _ s => (s ++ [2], none)

/-- Fixture: a handler that panics without side effects. -/
def hBoom : Handler (List Nat) := fun _ s => (s, some "boom")

/-- Fixture: an added event. -/
def eAdd : Event := { etype := EventType.PRAdded, PRNumber := 1, Timestamp := 0 }

/-- C4 counterexample: with a panicking handler subscribed before a logging
handler, publish returns the panic to the publisher and the second handler
never runs (its log entry is missing) — the claim that a failing handler
neither prevents later handlers nor reaches the publisher is false on this
bus. -/
theorem claim_C4_cex :
    Bus.Publish [hBoom, hLog2] eAdd [] = ([], some "boom") ∧
    ([] : List Nat) ≠ [2] := by
  exact ⟨rfl, by decide⟩

/-- C4 (amended): publish invokes the handlers synchronously in
subscription order, but does not isolate failures: when every handler
succeeds they all run, in order; a handler that panics stops the publish —
the handlers after it never run (the result does not depend on them) and
the panic propagates to the publisher. -/
theorem claim_C4 :
    (∀ (σ : Type) (hs : List (Handler σ)) (e : Event) (s : σ),
      (∀ h ∈ hs, ∀ s2, (h e s2).2 = none) →
      Bus.Publish hs e s = (hs.foldl (fun st h => (h e st).1) s, none)) ∧
    (∀ (σ : Type) (hs1 : List (Handler σ)) (h : Handler σ) (hs2 : List (Handler σ))
      (e : Event) (s : σ) (p : String),
      (∀ g ∈ hs1, ∀ s2, (g e s2).2 = none) →
      (h e (hs1.foldl (fun st g => (g e st).1) s)).2 = some p →
      Bus.Publish (hs1 ++ h :: hs2) e s =
        ((h e (hs1.foldl (fun st g => (g e st).1) s)).1, some p)) := by
  constructor
  · intro σ hs e
    induction hs with
    | nil => intro s _; rfl
    | cons g gs ih =>
      intro s hok
      show (match (g e s).2 with
        | none => Bus.Publish gs e (g e s).1
        | some p => ((g e s).1, some p)) = _
      rw [hok g (List.mem_cons_self g gs) s]
      exact ih (g e s).1 (fun h2 hm s2 => hok h2 (List.mem_cons_of_mem _ hm) s2)
  · intro σ hs1
    induction hs1 with
    | nil =>
      intro h hs2 e s p _ hfail
      show (match (h e s).2 with
        | none => Bus.Publish hs2 e (h e s).1
        | some q => ((h e s).1, some q)) = _
      rw [show (h e s).2 = some p from hfail]
      rfl
    | cons g gs ih =>
      intro h hs2 e s p hok hfail
      show (match (g e s).2 with
        | none => Bus.Publish (gs ++ h :: hs2) e (g e s).1
        | some q => ((g e s).1, some q)) = _
      rw [hok g (List.mem_cons_self g gs) s]
      exact ih h hs2 e (g e s).1 p
        (fun g2 hm s2 => hok g2 (List.mem_cons_of_mem _ hm) s2) hfail

/-- C4 witness: the amended behaviour evaluated on concrete handlers: all
succeed → both log entries in order; a panic in the middle → the log stops
before the second handler and the panic is returned. -/
theorem claim_C4_witness :
    Bus.Publish [hLog1, hLog2] eAdd [] = ([1, 2], none) ∧
    Bus.Publish [hLog1, hBoom, hLog2] eAdd [] = ([1], some "boom") := by
  constructor
  · have := claim_C4.1 (List Nat) [hLog1, hLog2] eAdd []
      (fun h hm s2 => by
        rcases List.mem_cons.mp hm with rfl | hm2
        · rfl
        · rcases List.mem_singleton.mp hm2 with rfl
          rfl)
    simpa using this
  · have := claim_C4.2 (List Nat) [hLog1] hBoom [hLog2] eAdd [] "boom"
      (fun g hm s2 => by
        rcases List.mem_singleton.mp hm with rfl
        rfl)
      rfl
    simpa using this

/-! ## Upstream client (internal/github)

The HTTP layer is abstracted to the data `doRequest` inspects: the status
code and the two rate-limit headers (a `Header.Get` of an absent header is
the empty string).  Body decoding is a separate input (`Option` of the
decoded value, `none` for malformed JSON). -/

/-- The part of an HTTP response `doRequest` looks at. -/
structure HttpResponse where
  StatusCode : Nat
  RateLimitRemaining : String
  RateLimitReset : String
  deriving Repr, DecidableEq

/-- Digits-only accumulator of `strconv.ParseInt`. -/
def parseDigits? : List Char → Option Nat
  | [] => none
  | cs => cs.foldl (fun acc c =>
      acc.bind (fun v => if c.isDigit then some (v * 10 + (c.toNat - 48)) else none))
      (some 0)

/-- Go `strconv.ParseInt(s, 10, 64)`: optional sign, decimal digits, and a
64-bit range check (out-of-range input is an error). -/
def parseInt64? (str : String) : Option Int :=
  match str.data with
  | '+' :: cs => (parseDigits? cs).bind (fun v =>
      if v ≤ 2 ^ 63 - 1 then some (v : Int) else none)
  | '-' :: cs => (parseDigits? cs).bind (fun v =>
      if v ≤ 2 ^ 63 then some (-(v : Int)) else none)
  | cs => (parseDigits? cs).bind (fun v =>
      if v ≤ 2 ^ 63 - 1 then some (v : Int) else none)

/-- Result of `doRequest` (after the transport succeeded): the response, or
a `RateLimitError` carrying the declared reset epoch (0 when the reset
header is absent or unparsable, like the zero `time.Time`). -/
inductive ReqResult where
  | ok (resp : HttpResponse)
  | rateLimited (resetAt : Int)
  deriving Repr, DecidableEq

/-- Embeds `github.(*Client).doRequest` (source lines 179-210), response
classification: a 403 or 429 whose `X-RateLimit-Remaining` header is "0"
becomes a `RateLimitError` with the declared reset time; everything else is
returned as-is. -/
def doRequest (resp : HttpResponse) : ReqResult :=
  if resp.StatusCode == 403 || resp.StatusCode == 429 then
    if resp.RateLimitRemaining == "0" then
      ReqResult.rateLimited
        (if resp.RateLimitReset != "" then (parseInt64? resp.RateLimitReset).getD 0 else 0)
    else ReqResult.ok resp
  else ReqResult.ok resp

/-- Result of `GetPR`: the info, a rate-limit error, or a plain error
(non-200 status or a decode failure). -/
inductive GetPRResult where
  | ok (info : PRInfo)
  | rateLimited (resetAt : Int)
  | upstreamError
  deriving Repr, DecidableEq

/-- Embeds `github.(*Client).GetPR` (source lines 212-247) over the response and
the decoded body. -/
def GetPR (resp : HttpResponse) (decoded : Option PRInfo) : GetPRResult :=
  match doRequest resp with
  | ReqResult.rateLimited t => GetPRResult.rateLimited t
  | ReqResult.ok r =>
    if r.StatusCode != 200 then GetPRResult.upstreamError
    else
      match decoded with
      | none => GetPRResult.upstreamError
      | some d => GetPRResult.ok d

/-- Result of `IsCommitInBranch`. -/
inductive CmpResult where
  | ok (val : Bool)
  | rateLimited (resetAt : Int)
  | upstreamError
  deriving Repr, DecidableEq

/-- Embeds `github.(*Client).IsCommitInBranch` (source lines 249-272) over the
compare response and the decoded `status` field: "behind" means the branch
contains the commit, "identical" that they coincide. -/
def IsCommitInBranch (resp : HttpResponse) (decoded : Option String) : CmpResult :=
  match doRequest resp with
  | ReqResult.rateLimited t => CmpResult.rateLimited t
  | ReqResult.ok r =>
    if r.StatusCode != 200 then CmpResult.upstreamError
    else
      match decoded with
      | none => CmpResult.upstreamError
      | some st => CmpResult.ok (st == "behind" || st == "identical")

/-! ## Claim C5 -/

/-- C5: `doRequest` signals `RateLimited` exactly when the status is a
throttling status (403 or 429) AND the remaining-quota header is exhausted
("0"); when the reset header carries a parsable epoch the signal carries
exactly that epoch; and a not-found response comes back from `GetPR` as a
plain error, never as rate limiting. -/
theorem claim_C5 :
    (∀ resp : HttpResponse,
      (∃ t, doRequest resp = ReqResult.rateLimited t) ↔
        ((resp.StatusCode = 403 ∨ resp.StatusCode = 429) ∧
          resp.RateLimitRemaining = "0")) ∧
    (∀ (resp : HttpResponse) (E : Int),
      (resp.StatusCode = 403 ∨ resp.StatusCode = 429) →
      resp.RateLimitRemaining = "0" →
      resp.RateLimitReset ≠ "" →
      parseInt64? resp.RateLimitReset = some E →
      doRequest resp = ReqResult.rateLimited E) ∧
    (∀ (resp : HttpResponse) (decoded : Option PRInfo),
      resp.StatusCode = 404 →
      GetPR resp decoded = GetPRResult.upstreamError) := by
  refine ⟨?_, ?_, ?_⟩
  · intro resp
    constructor
    · intro ⟨t, ht⟩
      unfold doRequest at ht
      by_cases h1 : (resp.StatusCode == 403 || resp.StatusCode == 429) = true
      · rw [if_pos h1] at ht
        by_cases h2 : (resp.RateLimitRemaining == "0") = true
        · refine ⟨?_, by simpa using h2⟩
          simpa using h1
        · rw [if_neg h2] at ht
          exact absurd ht (by simp)
      · rw [if_neg h1] at ht
        exact absurd ht (by simp)
    · intro ⟨hst, hrem⟩
      unfold doRequest
      have h1 : (resp.StatusCode == 403 || resp.StatusCode == 429) = true := by
        rcases hst with hh | hh <;> simp [hh]
      have h2 : (resp.RateLimitRemaining == "0") = true := by simp [hrem]
      rw [if_pos h1, if_pos h2]
      exact ⟨_, rfl⟩
  · intro resp E hst hrem hne hparse
    unfold doRequest
    have h1 : (resp.StatusCode == 403 || resp.StatusCode == 429) = true := by
      rcases hst with hh | hh <;> simp [hh]
    have h2 : (resp.RateLimitRemaining == "0") = true := by simp [hrem]
    have h3 : (resp.RateLimitReset != "") = true := by
      simp [bne, beq_eq_false_iff_ne.mpr hne]
    rw [if_pos h1, if_pos h2, if_pos h3, hparse]
    rfl
  · intro resp decoded h404
    unfold GetPR doRequest
    rw [if_neg (by simp [h404])]
    dsimp only
    rw [if_pos (by simp [h404])]

/-- C5 witness: a throttled 403 with exhausted quota and epoch 17, and a
plain 404. -/
theorem claim_C5_witness :
    (∃ t, doRequest ⟨403, "0", "17"⟩ = ReqResult.rateLimited t) ∧
    doRequest ⟨403, "0", "17"⟩ = ReqResult.rateLimited 17 ∧
    GetPR ⟨404, "", ""⟩ none = GetPRResult.upstreamError :=
  ⟨(claim_C5.1 ⟨403, "0", "17"⟩).mpr ⟨Or.inl rfl, rfl⟩,
   claim_C5.2.1 ⟨403, "0", "17"⟩ 17 (Or.inl rfl) rfl (by decide) (by decide),
   claim_C5.2.2 ⟨404, "", ""⟩ none rfl⟩

/-! ## Claim C9 -/

/-- C9: on a successful compare response, `IsCommitInBranch` answers `true`
exactly when the compare status is "behind" (branch contains the commit) or
"identical", and `false` exactly otherwise (e.g. "ahead" or "diverged"). -/
theorem claim_C9 (resp : HttpResponse) (st : String) (h200 : resp.StatusCode = 200) :
    (IsCommitInBranch resp (some st) = CmpResult.ok true ↔
      (st = "behind" ∨ st = "identical")) ∧
    (IsCommitInBranch resp (some st) = CmpResult.ok false ↔
      ¬(st = "behind" ∨ st = "identical")) := by
  have hdo : doRequest resp = ReqResult.ok resp := by
    unfold doRequest
    rw [if_neg (by simp [h200])]
  have hIs : IsCommitInBranch resp (some st) =
      CmpResult.ok (st == "behind" || st == "identical") := by
    unfold IsCommitInBranch
    rw [hdo]
    dsimp only
    rw [if_neg (by simp [h200])]
  constructor
  · rw [hIs]
    constructor
    · intro hh
      have h3 : (st == "behind" || st == "identical") = true := by
        injection hh
      simpa using h3
    · intro hh
      have h3 : (st == "behind" || st == "identical") = true := by
        rcases hh with hb | hb <;> simp [hb]
      rw [h3]
  · rw [hIs]
    constructor
    · intro hh hor
      have h1 : (st == "behind" || st == "identical") = false := by
        injection hh
      have h2 : (st == "behind" || st == "identical") = true := by
        rcases hor with hb | hb <;> simp [hb]
      rw [h1] at h2
      exact absurd h2 (by simp)
    · intro hh
      have h1 : (st == "behind") = false := by
        refine beq_eq_false_iff_ne.mpr (fun hb => hh (Or.inl hb))
      have h2 : (st == "identical") = false := by
        refine beq_eq_false_iff_ne.mpr (fun hb => hh (Or.inr hb))
      rw [h1, h2]
      rfl

/-- C9 witness: "behind" compares as reachable and "diverged" does not, on
a concrete 200 response. -/
theorem claim_C9_witness :
    IsCommitInBranch ⟨200, "", ""⟩ (some "behind") = CmpResult.ok true ∧
    IsCommitInBranch ⟨200, "", ""⟩ (some "diverged") = CmpResult.ok false :=
  ⟨(claim_C9 ⟨200, "", ""⟩ "behind" rfl).1.mpr (Or.inl rfl),
   (claim_C9 ⟨200, "", ""⟩ "diverged" rfl).2.mpr (by decide)⟩

/-! ## HTTP delete handler (internal/server) -/

/-- Embeds `server.(*Server).handleDeletePR` (source lines 186-217): parse the
path number (`strconv.Atoi`, i.e. a full 64-bit ParseInt) or answer 400;
load the row (a failed load is only logged, leaving `pr == nil`); delete —
deleting zero rows succeeds; publish a removed event whose title and author
come from the loaded row when there was one; answer 204.  The result is the
store state, the published events and the HTTP status code. -/
def handleDeletePR (s : DBState) (numStr : String) (now : Nat) :
    DBState × List Event × Nat :=
  match parseInt64? numStr with
  | none => (s, [], 400)
  | some num =>
    let pr := DB.GetPR s num
    let s2 := DB.RemovePR s num
    let evt : Event :=
      match pr with
      | some p => { etype := EventType.PRRemoved, PRNumber := num, Title := p.Title,
                    Author := p.Author, Timestamp := now }
      | none => { etype := EventType.PRRemoved, PRNumber := num, Timestamp := now }
    (s2, [evt], 204)

/-! ## Claim C10 -/

/-- C10: deleting an identifier that is not currently tracked still
succeeds: the handler answers 204 and publishes one removed event whose
title and author are empty, because removing zero rows from the store is
not an error. -/
theorem claim_C10 (s : DBState) (numStr : String) (now : Nat) (num : Int)
    (hparse : parseInt64? numStr = some num)
    (huntracked : DB.GetPR s num = none) :
    handleDeletePR s numStr now =
      (DB.RemovePR s num,
       [{ etype := EventType.PRRemoved, PRNumber := num, Title := "", Author := "",
          Branch := "", Timestamp := now }],
       204) := by
  unfold handleDeletePR
  rw [hparse]
  simp only [huntracked]

/-- C10 witness: deleting untracked id 7 from a store tracking only item 3. -/
theorem claim_C10_witness :
    handleDeletePR sOpen3 "7" 11 =
      (DB.RemovePR sOpen3 7,
       [{ etype := EventType.PRRemoved, PRNumber := 7, Title := "", Author := "",
          Branch := "", Timestamp := 11 }],
       204) :=
  claim_C10 sOpen3 "7" 11 7 (by decide) (by decide)

end NPT
